import Mathlib

/-!
Verification development for the midi-perform mapping-and-sequencing engine
(src/main.rs).  Pure shallow embedding: the key simulator is modelled as a
state recording which keys are believed pressed together with an append-only
log of emitted press/release actions and an accumulated elapsed-time counter;
thread sleeps become additions to the counter.  Modules of the repository that
are not present under src/ (midi, appstate, notemappings) are modelled from
the specification and marked as such in their doc comments.
-/

set_option maxRecDepth 20000

namespace MidiPerform

/-- Keyboard keys, from the use sites in src/main.rs and the spec data model:
named modifiers Shift, Control, Alt, the system key Escape, and layout
character keys. -/
inductive KbdKey where
  | Shift
  | Control
  | Alt
  | Escape
  | Layout (c : Char)
deriving DecidableEq, Repr

/-- Observable actions sent to the platform key simulator. -/
inductive KeyEvt where
  | press (k : KbdKey)
  | release (k : KbdKey)
deriving DecidableEq, Repr

/-- Sequence events, from notemappings::Event as used in src/main.rs:
a timed pause, a key press, a key release, and a modifier-set request. -/
inductive Event where
  | Delay (msecs : Nat)
  | KeyDown (k : KbdKey)
  | KeyUp (k : KbdKey)
  | NoteMod (k : Option KbdKey)
deriving DecidableEq, Repr

/-- The amount of time to wait for a keyboard modifier to stick (src/main.rs). -/
def MOD_DELAY_MS : Nat := 150

/-- The amount of time to wait for a keydown event to stick (src/main.rs). -/
def KEY_DELAY_MS : Nat := 40

/-- The amount of time required for system events, such as Esc (src/main.rs). -/
def SYS_DELAY_MS : Nat := 400

/-- A small delay required when switching between octaves (src/main.rs). -/
def OCTAVE_DELAY_MS : Nat := 10

/-- Modelled from the spec: the state of the keygen/key-simulator pair (module
appstate, absent from src/).  `pressed` is the set of keys currently believed
pressed (spec section 4.3), kept as a duplicate-free list; `log` is the
append-only record of press/release primitives actually emitted to the
platform (spec section 2, Key Simulator); `elapsed` accumulates all thread
sleeps, modelling wall-clock delays. -/
structure SimState where
  pressed : List KbdKey
  log : List KeyEvt
  elapsed : Nat
deriving DecidableEq, Repr

/-- Modelled from the spec: keygen key_down (module appstate, absent from
src/).  Presses the key only if it is not already pressed, emitting the press
primitive, and returns whether a transition occurred (spec sections 4.2 and
4.3: src/main.rs counts the returned Bool as a transition). -/
def key_down (k : KbdKey) (s : SimState) : Bool × SimState :=
  if k ∈ s.pressed then (false, s)
  else (true, ⟨k :: s.pressed, s.log ++ [KeyEvt.press k], s.elapsed⟩)

/-- Modelled from the spec: keygen key_up (module appstate, absent from src/).
Releases the key only if it is currently pressed, emitting the release
primitive, and returns whether a transition occurred. -/
def key_up (k : KbdKey) (s : SimState) : Bool × SimState :=
  if k ∈ s.pressed then
    (true, ⟨s.pressed.filter (fun x => x != k), s.log ++ [KeyEvt.release k], s.elapsed⟩)
  else (false, s)

/-- Thread sleep: advances the elapsed-time counter by the given duration. -/
def sleep (msecs : Nat) (s : SimState) : SimState :=
  ⟨s.pressed, s.log, s.elapsed + msecs⟩

/-- The tracked modifiers, from src/main.rs line 108:
let key_mods = vec![KbdKey::Shift, KbdKey::Control]. -/
def key_mods : List KbdKey := [KbdKey.Shift, KbdKey.Control]

/-- Loop body of the NoteMod handler for a present desired key
(src/main.rs lines 110-118): press the tracked modifier equal to the desired
key, release every other tracked modifier, counting transitions. -/
def mod_step_some (k : KbdKey) (acc : Nat × SimState) (key_mod : KbdKey) : Nat × SimState :=
  if key_mod = k then
    let r := key_down key_mod acc.2
    (if r.1 then acc.1 + 1 else acc.1, r.2)
  else
    let r := key_up key_mod acc.2
    (if r.1 then acc.1 + 1 else acc.1, r.2)

/-- Loop body of the NoteMod handler for an absent desired key
(src/main.rs lines 120-124): release every tracked modifier, counting
transitions. -/
def mod_step_none (acc : Nat × SimState) (key_mod : KbdKey) : Nat × SimState :=
  let r := key_up key_mod acc.2
  (if r.1 then acc.1 + 1 else acc.1, r.2)

/-- The NoteMod handler of src/main.rs lines 106-125: iterate over the tracked
modifiers, pressing the desired one and releasing the others (or releasing all
of them when no key is desired), returning the number of transitions together
with the resulting state. -/
def noteMod (kopt : Option KbdKey) (s : SimState) : Nat × SimState :=
  match kopt with
  | some k => key_mods.foldl (mod_step_some k) (0, s)
  | none => key_mods.foldl mod_step_none (0, s)

/-- One iteration of the sequence loop of src/main.rs lines 90-131:
Delay sleeps, KeyDown/KeyUp invoke the key simulator synchronously, NoteMod
runs the modifier coalescing loop and sleeps for the octave settle delay
exactly when at least one transition occurred (lines 126-128). -/
def runEvent (s : SimState) (e : Event) : SimState :=
  match e with
  | Event.Delay msecs => sleep msecs s
  | Event.KeyDown k => (key_down k s).2
  | Event.KeyUp k => (key_up k s).2
  | Event.NoteMod kopt =>
      let r := noteMod kopt s
      if 0 < r.1 then sleep OCTAVE_DELAY_MS r.2 else r.2

/-- The sequence loop of src/main.rs lines 90-131: executes the events
strictly in declared order on the calling thread. -/
def runSequence (sequence : List Event) (s : SimState) : SimState :=
  sequence.foldl runEvent s

/-- A note mapping, from notemappings::NoteMapping as used in src/main.rs and
the spec data model: a trigger note, a trigger channel (with a wildcard flag,
spec section 4.1), and the on/off event sequences (fields on_seq and off_seq, named on and off in the source).  The source constructor's
third argument is None at every modelled call site and is omitted. -/
structure NoteMapping where
  note : Nat
  channel : Nat
  wildcard : Bool
  on_seq : List Event
  off_seq : List Event
deriving DecidableEq, Repr

/-- The mapping table: an ordered collection of mappings, insertion order
significant for lookup tie-breaking (spec section 3). -/
abbrev NoteMappings := List NoteMapping

/-- Table append (spec section 4.1: add appends, no uniqueness enforcement). -/
def NoteMappings.add (t : NoteMappings) (m : NoteMapping) : NoteMappings :=
  t ++ [m]

/-- Modelled from the spec: NoteMappings::find (module notemappings, absent
from src/), spec section 4.1 — returns the first mapping in insertion order
whose note matches exactly and whose channel either matches exactly or is
flagged as a wildcard; the source's third filter argument is None at the
modelled call site (src/main.rs line 81) and is omitted. -/
def NoteMappings.find (note channel : Nat) (t : NoteMappings) : Option NoteMapping :=
  List.find? (fun m => m.note == note && (m.wildcard || m.channel == channel)) t

/-- Midi event kind, from midi::MidiEvent as matched in src/main.rs
lines 84-87. -/
inductive MidiEvent where
  | NoteOn
  | NoteOff
deriving DecidableEq, Repr

/-- Modelled from the spec: the parsed structured controller message (module
midi, absent from src/), as consumed at the call sites msg.note(),
msg.channel(), msg.event() in src/main.rs. -/
structure MidiMessage where
  note : Nat
  channel : Nat
  event : MidiEvent
deriving DecidableEq, Repr

/-- Coordinator state visible to the dispatcher: the mapping table, the
simulator state, and the line-oriented console output. -/
structure AppState where
  mappings : NoteMappings
  sim : SimState
  console : List String
deriving DecidableEq, Repr

/-- The dispatcher, from midi_callback in src/main.rs lines 73-147 (default
build: the block guarded by the debug cargo feature is compiled out).  Message
parsing is an external collaborator (spec section 1) and is passed in as a
function; a message that fails to parse is skipped.  On a successful parse the
table is searched; a hit runs the on or off sequence according to the event
kind, a miss prints the no-mapping line. -/
def midi_callback (parse : List Nat → Option MidiMessage) (raw_message : List Nat)
    (st : AppState) : AppState :=
  match parse raw_message with
  | none => st
  | some msg =>
    match NoteMappings.find msg.note msg.channel st.mappings with
    | some note_mapping =>
        let sequence :=
          match msg.event with
          | MidiEvent.NoteOn => note_mapping.on_seq
          | MidiEvent.NoteOff => note_mapping.off_seq
        ⟨st.mappings, runSequence sequence st.sim, st.console⟩
    | none =>
        ⟨st.mappings, st.sim,
          st.console ++
            ["No note mapping for " ++ toString msg.note ++ " @ " ++ toString msg.channel]⟩

/-- The 48 layout characters of the generated default table
(src/main.rs lines 150-152). -/
def keys_list : List Char :=
  ['t', 'h', 'x', 'g', 'j', 'e', 'z', 'p', 'k', 'f', 'y', 'm', 'd', 'w', 'a',
   'u', 'o', 'r', 'n', 'e', 'c', 't', 'l', 'i', 's', 'g', 'h', 'v', 'b', 'd',
   'q', 'a', 'm', 'e', 'u', 'o', 'r', Char.ofNat 32, '1', '2', '3', '4', '5',
   '6', '7', '8', '9', '0']

/-- The 8 pad characters on channel 9 (src/main.rs line 180). -/
def pads_list : List Char :=
  ['z', 'x', 'c', 'v', 'b', 'n', 'm', Char.ofNat 44]

/-- Modelled from the spec: the pitch index of MidiNote::C1 (module midi,
absent from src/).  The zero-based convention with C at index 0 of octave -1
gives C1 = 24; the theorems below depend only on relative placement of the
generated notes. -/
def midiC1 : Nat := 24

/-- Modelled from the spec: NoteMapping::down_event (module notemappings,
absent from src/) builds an on-sequence that first establishes the modifier
context, then waits for the supplied settle delay when one is given, then
presses the layout key (spec section 8 end-to-end example: ModifierSet of
Control followed by KeyDown of the mapped character key). -/
def NoteMapping.down_event (key : Char) (kmod : Option KbdKey) (delay : Option Nat) :
    List Event :=
  [Event.NoteMod kmod] ++
    (match delay with
     | some d => [Event.Delay d]
     | none => []) ++
    [Event.KeyDown (KbdKey.Layout key)]

/-- Modelled from the spec: NoteMapping::up_event (module notemappings, absent
from src/), symmetric to down_event with the key release. -/
def NoteMapping.up_event (key : Char) (kmod : Option KbdKey) (delay : Option Nat) :
    List Event :=
  [Event.NoteMod kmod] ++
    (match delay with
     | some d => [Event.Delay d]
     | none => []) ++
    [Event.KeyUp (KbdKey.Layout key)]

/-- The pad on-sequence of src/main.rs lines 182-203. -/
def pad_sequence (pad : Char) : List Event :=
  [Event.NoteMod none,
   Event.KeyDown KbdKey.Escape,
   Event.Delay KEY_DELAY_MS,
   Event.KeyUp KbdKey.Escape,
   Event.Delay SYS_DELAY_MS,
   Event.KeyDown KbdKey.Control,
   Event.KeyDown KbdKey.Alt,
   Event.KeyDown KbdKey.Shift,
   Event.Delay MOD_DELAY_MS,
   Event.KeyDown (KbdKey.Layout pad),
   Event.Delay KEY_DELAY_MS,
   Event.KeyUp (KbdKey.Layout pad),
   Event.Delay MOD_DELAY_MS,
   Event.KeyUp KbdKey.Shift,
   Event.KeyUp KbdKey.Alt,
   Event.KeyUp KbdKey.Control]

/-- The default table generator of src/main.rs lines 149-213: for each of the
48 keys, a low-octave mapping at C1 plus the key index with a Control-modified
sequence is added first, then a mid-octave mapping twelve semitones higher
with an unmodified sequence; then the 8 pad mappings on channel 9. -/
def generate_old_mappings : NoteMappings :=
  let tbl :=
    keys_list.enum.foldl
      (fun tbl p =>
        let note_mapping_lo : NoteMapping :=
          ⟨p.1 + midiC1, 0, false,
           NoteMapping.down_event p.2 (some KbdKey.Control) (some MOD_DELAY_MS),
           NoteMapping.up_event p.2 (some KbdKey.Control) (some MOD_DELAY_MS)⟩
        let note_mapping_mid : NoteMapping :=
          ⟨p.1 + midiC1 + 12, 0, false,
           NoteMapping.down_event p.2 none none,
           NoteMapping.up_event p.2 none none⟩
        NoteMappings.add (NoteMappings.add tbl note_mapping_lo) note_mapping_mid)
      ([] : NoteMappings)
  pads_list.enum.foldl
    (fun tbl p => NoteMappings.add tbl ⟨p.1 + 40, 9, false, pad_sequence p.2, []⟩)
    tbl

/-- Device-manager state: the connection registry as an association list from
device name to a connection identifier (fresh identifiers distinguish distinct
connections to a same-named device), the next fresh identifier, and the
line-oriented status output.  The source uses a HashMap; insertion order is
kept here, the registry's contents as a set are the same. -/
structure DevState where
  ports : List (String × Nat)
  nextId : Nat
  output : List String
deriving DecidableEq, Repr

/-- The initial device-manager state (src/main.rs line 216: empty registry). -/
def devInit : DevState := ⟨[], 0, []⟩

/-- The connect attempt of src/main.rs lines 256-272: on success register the
connection under its name and report it; on failure report and leave the
registry unchanged (retried next cycle). -/
def connectStep (connect_ok : String → Bool) (name : String) (st : DevState) : DevState :=
  if connect_ok name then
    ⟨st.ports ++ [(name, st.nextId)], st.nextId + 1,
     st.output ++ ["Connection established to " ++ name]⟩
  else
    ⟨st.ports, st.nextId, st.output ++ ["Unable to connect to device " ++ name]⟩

/-- The per-port body of the hot-plug loop (src/main.rs lines 238-275): skip a
name already registered, skip it when a device filter is configured and does
not match, otherwise attempt to connect. -/
def seenStep (midi_name : Option String) (connect_ok : String → Bool)
    (st : DevState) (name : String) : DevState :=
  if st.ports.any (fun p => p.1 == name) then st
  else
    match midi_name with
    | some target => if target != name then st else connectStep connect_ok name st
    | none => connectStep connect_ok name st

/-- One cycle of the hot-plug loop of src/main.rs lines 229-288.  `visible` is
the list of port names that resolved successfully this cycle (a port whose
name resolution fails contributes nothing, line 241).  After the per-port
phase, every registry entry whose name was not seen this cycle is closed,
deregistered and its disconnection reported. -/
def pollCycle (midi_name : Option String) (connect_ok : String → Bool)
    (visible : List String) (st : DevState) : DevState :=
  let st1 := visible.foldl (seenStep midi_name connect_ok) st
  let kept := st1.ports.filter (fun p => visible.contains p.1)
  let dropped := st1.ports.filter (fun p => !(visible.contains p.1))
  ⟨kept, st1.nextId, st1.output ++ dropped.map (fun p => "Disconnected from " ++ p.1)⟩

/-- The startup-and-loop structure of run in src/main.rs lines 215-289: an
explicitly requested mappings file is imported (a failure propagates, the
source unwraps and aborts, before any polling); otherwise the generated
default table is used; then the hot-plug loop runs one cycle per poll.  The
importing operation (module notemappings, absent from src/) is an external
fallible operation passed in as a function. -/
def run_model (midi_name : Option String) (mappings_file : Option String)
    (importFn : String → Except String NoteMappings) (connect_ok : String → Bool)
    (polls : List (List String)) : Except String (NoteMappings × DevState) :=
  match mappings_file with
  | some filename =>
    match importFn filename with
    | Except.error e => Except.error e
    | Except.ok tbl =>
        Except.ok (tbl, polls.foldl (fun st vis => pollCycle midi_name connect_ok vis st) devInit)
  | none =>
      Except.ok (generate_old_mappings,
        polls.foldl (fun st vis => pollCycle midi_name connect_ok vis st) devInit)

/-- The desired modifier state requested by a NoteMod event already holds:
the desired tracked modifier (if any) is pressed and every other tracked
modifier is up (spec section 4.3). -/
def desiredInEffect (kopt : Option KbdKey) (s : SimState) : Prop :=
  match kopt with
  | some k => (k ∈ key_mods → k ∈ s.pressed) ∧ ∀ m ∈ key_mods, m ≠ k → m ∉ s.pressed
  | none => ∀ m ∈ key_mods, m ∉ s.pressed

instance (kopt : Option KbdKey) (s : SimState) : Decidable (desiredInEffect kopt s) := by
  unfold desiredInEffect
  cases kopt <;> infer_instance

/-- The key events a step appended to the log: the suffix of the new log past
the old log. -/
def log_ext (s t : SimState) : List KeyEvt :=
  t.log.drop s.log.length

/-- The initial simulator state: nothing pressed, nothing emitted, no time
elapsed. -/
def simInit : SimState := ⟨[], [], 0⟩

/-- An initial coordinator state with an empty mapping table. -/
def appInit : AppState := ⟨[], simInit, []⟩

/-- A one-entry sample table row used to exercise the dispatcher on concrete
input. -/
def sampleMapping : NoteMapping :=
  ⟨60, 0, false, [Event.KeyDown (KbdKey.Layout 'a')], [Event.KeyUp (KbdKey.Layout 'a')]⟩

/-- A coordinator state holding only the sample mapping. -/
def sampleApp : AppState := ⟨[sampleMapping], simInit, []⟩

/-- A parser stub that recognises every raw message as note-on 60 on
channel 0. -/
def sampleParse : List Nat → Option MidiMessage := fun _ => some ⟨60, 0, MidiEvent.NoteOn⟩

/-- A transport stub where every connect attempt succeeds. -/
def allPortsOk : String → Bool := fun _ => true

/-- An import stub that always fails with a parse error. -/
def failImport : String → Except String NoteMappings := fun _ => Except.error "bad mapping line"

/-- The layout character assigned to a key index of the generated default
table. -/
def key_at (j : Nat) : Char := keys_list.getD j (Char.ofNat 0)

/-- The low-octave (Control-modified) mapping the generator builds for key
index j. -/
def lo_mapping (j : Nat) : NoteMapping :=
  ⟨j + midiC1, 0, false,
   NoteMapping.down_event (key_at j) (some KbdKey.Control) (some MOD_DELAY_MS),
   NoteMapping.up_event (key_at j) (some KbdKey.Control) (some MOD_DELAY_MS)⟩

/-- The mid-octave (unmodified) mapping the generator builds for key index j. -/
def mid_mapping (j : Nat) : NoteMapping :=
  ⟨j + midiC1 + 12, 0, false,
   NoteMapping.down_event (key_at j) none none,
   NoteMapping.up_event (key_at j) none none⟩

/-- Evaluation of key_down when the key is already pressed. -/
lemma key_down_of_mem {k : KbdKey} {s : SimState} (h : k ∈ s.pressed) :
    key_down k s = (false, s) := by
  simp [key_down, h]

/-- Evaluation of key_down when the key is not pressed. -/
lemma key_down_of_not_mem {k : KbdKey} {s : SimState} (h : k ∉ s.pressed) :
    key_down k s = (true, ⟨k :: s.pressed, s.log ++ [KeyEvt.press k], s.elapsed⟩) := by
  simp [key_down, h]

/-- Evaluation of key_up when the key is pressed. -/
lemma key_up_of_mem {k : KbdKey} {s : SimState} (h : k ∈ s.pressed) :
    key_up k s = (true, ⟨s.pressed.filter (fun x => x != k),
      s.log ++ [KeyEvt.release k], s.elapsed⟩) := by
  simp [key_up, h]

/-- Evaluation of key_up when the key is not pressed. -/
lemma key_up_of_not_mem {k : KbdKey} {s : SimState} (h : k ∉ s.pressed) :
    key_up k s = (false, s) := by
  simp [key_up, h]

/-- Full case evaluation of the NoteMod handler when Shift is desired. -/
lemma noteMod_some_shift (s : SimState) :
    noteMod (some KbdKey.Shift) s =
      if KbdKey.Shift ∈ s.pressed then
        if KbdKey.Control ∈ s.pressed then
          (1, ⟨s.pressed.filter (fun x => x != KbdKey.Control),
               s.log ++ [KeyEvt.release KbdKey.Control], s.elapsed⟩)
        else (0, s)
      else
        if KbdKey.Control ∈ s.pressed then
          (2, ⟨KbdKey.Shift :: s.pressed.filter (fun x => x != KbdKey.Control),
               s.log ++ [KeyEvt.press KbdKey.Shift, KeyEvt.release KbdKey.Control], s.elapsed⟩)
        else (1, ⟨KbdKey.Shift :: s.pressed, s.log ++ [KeyEvt.press KbdKey.Shift], s.elapsed⟩) := by
  by_cases hS : KbdKey.Shift ∈ s.pressed <;>
    by_cases hC : KbdKey.Control ∈ s.pressed <;>
      simp [noteMod, key_mods, mod_step_some, key_down, key_up, hS, hC]

/-- Full case evaluation of the NoteMod handler when Control is desired. -/
lemma noteMod_some_control (s : SimState) :
    noteMod (some KbdKey.Control) s =
      if KbdKey.Shift ∈ s.pressed then
        if KbdKey.Control ∈ s.pressed then
          (1, ⟨s.pressed.filter (fun x => x != KbdKey.Shift),
               s.log ++ [KeyEvt.release KbdKey.Shift], s.elapsed⟩)
        else
          (2, ⟨KbdKey.Control :: s.pressed.filter (fun x => x != KbdKey.Shift),
               s.log ++ [KeyEvt.release KbdKey.Shift, KeyEvt.press KbdKey.Control], s.elapsed⟩)
      else
        if KbdKey.Control ∈ s.pressed then (0, s)
        else (1, ⟨KbdKey.Control :: s.pressed, s.log ++ [KeyEvt.press KbdKey.Control], s.elapsed⟩) := by
  by_cases hS : KbdKey.Shift ∈ s.pressed <;>
    by_cases hC : KbdKey.Control ∈ s.pressed <;>
      simp [noteMod, key_mods, mod_step_some, key_down, key_up, hS, hC]

/-- Full case evaluation of the NoteMod handler when no key is desired. -/
lemma noteMod_none_eval (s : SimState) :
    noteMod none s =
      if KbdKey.Shift ∈ s.pressed then
        if KbdKey.Control ∈ s.pressed then
          (2, ⟨(s.pressed.filter (fun x => x != KbdKey.Shift)).filter (fun x => x != KbdKey.Control),
               s.log ++ [KeyEvt.release KbdKey.Shift, KeyEvt.release KbdKey.Control], s.elapsed⟩)
        else
          (1, ⟨s.pressed.filter (fun x => x != KbdKey.Shift),
               s.log ++ [KeyEvt.release KbdKey.Shift], s.elapsed⟩)
      else
        if KbdKey.Control ∈ s.pressed then
          (1, ⟨s.pressed.filter (fun x => x != KbdKey.Control),
               s.log ++ [KeyEvt.release KbdKey.Control], s.elapsed⟩)
        else (0, s) := by
  by_cases hS : KbdKey.Shift ∈ s.pressed <;>
    by_cases hC : KbdKey.Control ∈ s.pressed <;>
      simp [noteMod, key_mods, mod_step_none, key_up, hS, hC]

/-- The NoteMod handler treats an untracked desired key exactly like an absent
desired key: both branches of the loop body release. -/
lemma noteMod_some_untracked {k : KbdKey} (s : SimState) (h : k ∉ key_mods) :
    noteMod (some k) s = noteMod none s := by
  have h1 : KbdKey.Shift ≠ k := by
    intro e
    exact h (by simp [key_mods, ← e])
  have h2 : KbdKey.Control ≠ k := by
    intro e
    exact h (by simp [key_mods, ← e])
  simp [noteMod, key_mods, mod_step_some, mod_step_none, h1, h2]

/-- C1: for a NoteMod event whose desired key is a tracked modifier, the
coalescer emits a press of that modifier exactly when it is not already
pressed, emits a release of each other tracked modifier exactly when that one
is currently pressed, and emits nothing else; for an absent desired key it
emits exactly a release of each tracked modifier currently pressed. -/
theorem noteMod_tracked_coalesces (k : KbdKey) (s : SimState) (hk : k ∈ key_mods) :
    ((KeyEvt.press k ∈ log_ext s (noteMod (some k) s).2) ↔ k ∉ s.pressed)
    ∧ (∀ m ∈ key_mods, m ≠ k →
        ((KeyEvt.release m ∈ log_ext s (noteMod (some k) s).2) ↔ m ∈ s.pressed))
    ∧ (∀ e ∈ log_ext s (noteMod (some k) s).2,
        e = KeyEvt.press k ∨ ∃ m ∈ key_mods, m ≠ k ∧ e = KeyEvt.release m)
    ∧ (∀ m ∈ key_mods, (KeyEvt.release m ∈ log_ext s (noteMod none s).2) ↔ m ∈ s.pressed)
    ∧ (∀ e ∈ log_ext s (noteMod none s).2, ∃ m ∈ key_mods, e = KeyEvt.release m) := by
  have hks : k = KbdKey.Shift ∨ k = KbdKey.Control := by simpa [key_mods] using hk
  rcases hks with rfl | rfl <;>
    by_cases hS : KbdKey.Shift ∈ s.pressed <;>
      by_cases hC : KbdKey.Control ∈ s.pressed <;>
        simp [noteMod_some_shift, noteMod_some_control, noteMod_none_eval, hS, hC, log_ext,
          List.drop_left, List.drop_length, key_mods]

/-- Witness for C1 at a concrete input: desiring Control while only Shift is
pressed emits a press of Control. -/
theorem noteMod_tracked_coalesces_witness :
    (KeyEvt.press KbdKey.Control ∈
        log_ext ⟨[KbdKey.Shift], [], 0⟩ (noteMod (some KbdKey.Control) ⟨[KbdKey.Shift], [], 0⟩).2)
      ↔ KbdKey.Control ∉ (⟨[KbdKey.Shift], [], 0⟩ : SimState).pressed :=
  (noteMod_tracked_coalesces KbdKey.Control ⟨[KbdKey.Shift], [], 0⟩ (by decide)).1

/-- C3: processing a NoteMod event adds the fixed octave settle delay to the
elapsed time exactly when at least one transition was reported; transitions
are reported exactly when key events were emitted; and when the desired
modifier state is already in effect the whole event is a no-op — no key
events, no delay. -/
theorem noteMod_settle_delay (kopt : Option KbdKey) (s : SimState) :
    (runEvent s (Event.NoteMod kopt)).elapsed
        = s.elapsed + (if 0 < (noteMod kopt s).1 then OCTAVE_DELAY_MS else 0)
    ∧ (0 < (noteMod kopt s).1 ↔ (noteMod kopt s).2.log ≠ s.log)
    ∧ (desiredInEffect kopt s → runEvent s (Event.NoteMod kopt) = s) := by
  have grind : ∀ kopt2 : Option KbdKey, noteMod kopt2 s = noteMod none s →
      (runEvent s (Event.NoteMod kopt2)).elapsed
          = s.elapsed + (if 0 < (noteMod kopt2 s).1 then OCTAVE_DELAY_MS else 0)
      ∧ (0 < (noteMod kopt2 s).1 ↔ (noteMod kopt2 s).2.log ≠ s.log)
      ∧ ((∀ m ∈ key_mods, m ∉ s.pressed) → runEvent s (Event.NoteMod kopt2) = s) := by
    intro kopt2 h
    rw [runEvent, h] at *
    by_cases hS : KbdKey.Shift ∈ s.pressed <;>
      by_cases hC : KbdKey.Control ∈ s.pressed <;>
        simp [h, noteMod_none_eval, hS, hC, sleep, key_mods]
  match kopt with
  | none => exact grind none rfl
  | some KbdKey.Shift =>
    refine ⟨?_, ?_, ?_⟩ <;>
      by_cases hS : KbdKey.Shift ∈ s.pressed <;>
        by_cases hC : KbdKey.Control ∈ s.pressed <;>
          simp [runEvent, noteMod_some_shift, hS, hC, sleep, desiredInEffect, key_mods]
  | some KbdKey.Control =>
    refine ⟨?_, ?_, ?_⟩ <;>
      by_cases hS : KbdKey.Shift ∈ s.pressed <;>
        by_cases hC : KbdKey.Control ∈ s.pressed <;>
          simp [runEvent, noteMod_some_control, hS, hC, sleep, desiredInEffect, key_mods]
  | some (KbdKey.Alt) =>
    have h := noteMod_some_untracked (k := KbdKey.Alt) s (by simp [key_mods])
    have g := grind (some KbdKey.Alt) h
    exact ⟨g.1, g.2.1, fun hd => g.2.2 (by simpa [desiredInEffect, key_mods] using hd.2)⟩
  | some (KbdKey.Escape) =>
    have h := noteMod_some_untracked (k := KbdKey.Escape) s (by simp [key_mods])
    have g := grind (some KbdKey.Escape) h
    exact ⟨g.1, g.2.1, fun hd => g.2.2 (by simpa [desiredInEffect, key_mods] using hd.2)⟩
  | some (KbdKey.Layout c) =>
    have h := noteMod_some_untracked (k := KbdKey.Layout c) s (by simp [key_mods])
    have g := grind (some (KbdKey.Layout c)) h
    exact ⟨g.1, g.2.1, fun hd => g.2.2 (by simpa [desiredInEffect, key_mods] using hd.2)⟩

/-- Witness for C3 at a concrete input: desiring Control while exactly Control
is pressed leaves the state untouched — no key events, no delay. -/
theorem noteMod_settle_delay_witness :
    runEvent ⟨[KbdKey.Control], [], 0⟩ (Event.NoteMod (some KbdKey.Control))
      = ⟨[KbdKey.Control], [], 0⟩ :=
  (noteMod_settle_delay (some KbdKey.Control) ⟨[KbdKey.Control], [], 0⟩).2.2 (by decide)

/-- C4: the coalescer is idempotent — immediately repeating a NoteMod request
with the same desired key performs no press or release and reports zero
transitions, for every desired key (tracked, untracked or absent) and every
starting state. -/
theorem noteMod_set_idempotent (kopt : Option KbdKey) (s : SimState) :
    noteMod kopt ((noteMod kopt s).2) = (0, (noteMod kopt s).2) := by
  have hnone : noteMod none ((noteMod none s).2) = (0, (noteMod none s).2) := by
    by_cases hS : KbdKey.Shift ∈ s.pressed <;>
      by_cases hC : KbdKey.Control ∈ s.pressed <;>
        simp [noteMod_none_eval, hS, hC, List.mem_filter]
  match kopt with
  | none => exact hnone
  | some KbdKey.Shift =>
    by_cases hS : KbdKey.Shift ∈ s.pressed <;>
      by_cases hC : KbdKey.Control ∈ s.pressed <;>
        simp [noteMod_some_shift, hS, hC, List.mem_filter]
  | some KbdKey.Control =>
    by_cases hS : KbdKey.Shift ∈ s.pressed <;>
      by_cases hC : KbdKey.Control ∈ s.pressed <;>
        simp [noteMod_some_control, hS, hC, List.mem_filter]
  | some (KbdKey.Alt) =>
    rw [noteMod_some_untracked _ (by simp [key_mods]),
      noteMod_some_untracked _ (by simp [key_mods])]
    exact hnone
  | some (KbdKey.Escape) =>
    rw [noteMod_some_untracked _ (by simp [key_mods]),
      noteMod_some_untracked _ (by simp [key_mods])]
    exact hnone
  | some (KbdKey.Layout c) =>
    rw [noteMod_some_untracked _ (by simp [key_mods]),
      noteMod_some_untracked _ (by simp [key_mods])]
    exact hnone

/-- C9: a NoteMod event whose desired key is present but not a tracked
modifier behaves exactly like an absent desired key — it emits a release of
each tracked modifier currently pressed and presses nothing. -/
theorem noteMod_untracked_releases_all (k : KbdKey) (s : SimState)
    (h1 : k ≠ KbdKey.Shift) (h2 : k ≠ KbdKey.Control) :
    noteMod (some k) s = noteMod none s
    ∧ runEvent s (Event.NoteMod (some k)) = runEvent s (Event.NoteMod none)
    ∧ (∀ m ∈ key_mods,
        (KeyEvt.release m ∈ log_ext s (noteMod (some k) s).2) ↔ m ∈ s.pressed)
    ∧ (∀ e ∈ log_ext s (noteMod (some k) s).2, ∃ m ∈ key_mods, e = KeyEvt.release m) := by
  have hk : k ∉ key_mods := by simp [key_mods, h1, h2]
  have h := noteMod_some_untracked s hk
  refine ⟨h, by simp [runEvent, h], ?_, ?_⟩ <;>
    rw [h] <;>
      by_cases hS : KbdKey.Shift ∈ s.pressed <;>
        by_cases hC : KbdKey.Control ∈ s.pressed <;>
          simp [noteMod_none_eval, hS, hC, log_ext, List.drop_left, List.drop_length, key_mods]

/-- Witness for C9 at a concrete input: desiring Alt while Shift is pressed is
the same as desiring nothing. -/
theorem noteMod_untracked_releases_all_witness :
    noteMod (some KbdKey.Alt) ⟨[KbdKey.Shift], [], 0⟩ = noteMod none ⟨[KbdKey.Shift], [], 0⟩ :=
  (noteMod_untracked_releases_all KbdKey.Alt ⟨[KbdKey.Shift], [], 0⟩ (by decide) (by decide)).1

/-- Appending a log entry through key_down: the possible extensions. -/
lemma key_down_log_ext (k : KbdKey) (s : SimState) :
    ∃ t, (key_down k s).2.log = s.log ++ t := by
  by_cases h : k ∈ s.pressed
  · exact ⟨[], by simp [key_down, h]⟩
  · exact ⟨[KeyEvt.press k], by simp [key_down, h]⟩

/-- Appending a log entry through key_up: the possible extensions. -/
lemma key_up_log_ext (k : KbdKey) (s : SimState) :
    ∃ t, (key_up k s).2.log = s.log ++ t := by
  by_cases h : k ∈ s.pressed
  · exact ⟨[KeyEvt.release k], by simp [key_up, h]⟩
  · exact ⟨[], by simp [key_up, h]⟩

/-- One iteration of the desired-key coalescing loop only appends to the log. -/
lemma mod_step_some_log_ext (k : KbdKey) (acc : Nat × SimState) (m : KbdKey) :
    ∃ t, (mod_step_some k acc m).2.log = acc.2.log ++ t := by
  unfold mod_step_some
  by_cases h : m = k
  · subst h
    obtain ⟨t, ht⟩ := key_down_log_ext m acc.2
    exact ⟨t, by simp [ht]⟩
  · obtain ⟨t, ht⟩ := key_up_log_ext m acc.2
    exact ⟨t, by simp [h, ht]⟩

/-- One iteration of the release-all coalescing loop only appends to the log. -/
lemma mod_step_none_log_ext (acc : Nat × SimState) (m : KbdKey) :
    ∃ t, (mod_step_none acc m).2.log = acc.2.log ++ t := by
  unfold mod_step_none
  obtain ⟨t, ht⟩ := key_up_log_ext m acc.2
  exact ⟨t, by simp [ht]⟩

/-- The NoteMod handler only appends to the log. -/
lemma noteMod_log_ext (kopt : Option KbdKey) (s : SimState) :
    ∃ t, (noteMod kopt s).2.log = s.log ++ t := by
  cases kopt with
  | some k =>
    obtain ⟨t1, h1⟩ := mod_step_some_log_ext k (0, s) KbdKey.Shift
    obtain ⟨t2, h2⟩ := mod_step_some_log_ext k (mod_step_some k (0, s) KbdKey.Shift) KbdKey.Control
    refine ⟨t1 ++ t2, ?_⟩
    show (List.foldl (mod_step_some k) (0, s) key_mods).2.log = s.log ++ (t1 ++ t2)
    simp only [key_mods, List.foldl_cons, List.foldl_nil]
    rw [h2, h1, List.append_assoc]
  | none =>
    obtain ⟨t1, h1⟩ := mod_step_none_log_ext (0, s) KbdKey.Shift
    obtain ⟨t2, h2⟩ := mod_step_none_log_ext (mod_step_none (0, s) KbdKey.Shift) KbdKey.Control
    refine ⟨t1 ++ t2, ?_⟩
    show (List.foldl mod_step_none (0, s) key_mods).2.log = s.log ++ (t1 ++ t2)
    simp only [key_mods, List.foldl_cons, List.foldl_nil]
    rw [h2, h1, List.append_assoc]

/-- A single sequence event only appends to the log. -/
lemma runEvent_log_ext (s : SimState) (e : Event) :
    ∃ t, (runEvent s e).log = s.log ++ t := by
  cases e with
  | Delay msecs => exact ⟨[], by simp [runEvent, sleep]⟩
  | KeyDown k =>
    obtain ⟨t, ht⟩ := key_down_log_ext k s
    exact ⟨t, by simpa [runEvent] using ht⟩
  | KeyUp k =>
    obtain ⟨t, ht⟩ := key_up_log_ext k s
    exact ⟨t, by simpa [runEvent] using ht⟩
  | NoteMod kopt =>
    obtain ⟨t, ht⟩ := noteMod_log_ext kopt s
    refine ⟨t, ?_⟩
    simp only [runEvent]
    by_cases h : 0 < (noteMod kopt s).1 <;> simp [h, sleep, ht]

/-- A whole sequence only appends to the log: key events of earlier events
stay in place, in order, before those of later events. -/
lemma runSequence_log_ext (sequence : List Event) :
    ∀ s : SimState, ∃ t, (runSequence sequence s).log = s.log ++ t := by
  induction sequence with
  | nil => exact fun s => ⟨[], by simp [runSequence]⟩
  | cons e es ih =>
    intro s
    obtain ⟨t1, h1⟩ := runEvent_log_ext s e
    obtain ⟨t2, h2⟩ := ih (runEvent s e)
    refine ⟨t1 ++ t2, ?_⟩
    show (runSequence es (runEvent s e)).log = s.log ++ (t1 ++ t2)
    rw [h2, h1, List.append_assoc]

/-- C2: the dispatcher executes a found mapping synchronously on the state it
was called with — a note-on message selects the mapping's on sequence and a
note-off message its off sequence — and sequence execution is strictly
in declared order: executing a concatenation executes the first part, then the
second part on the resulting state; the emitted key events only accumulate at
the end of the log; and a KeyDown or KeyUp event invokes the key simulator
immediately, appending exactly its own press or release. -/
theorem midi_callback_runs_in_order :
    (∀ (parse : List Nat → Option MidiMessage) (raw : List Nat) (st : AppState)
        (msg : MidiMessage) (nm : NoteMapping),
        parse raw = some msg →
        NoteMappings.find msg.note msg.channel st.mappings = some nm →
        midi_callback parse raw st =
          ⟨st.mappings,
           runSequence
             (match msg.event with
              | MidiEvent.NoteOn => nm.on_seq
              | MidiEvent.NoteOff => nm.off_seq) st.sim,
           st.console⟩)
    ∧ (∀ (xs ys : List Event) (s : SimState),
        runSequence (xs ++ ys) s = runSequence ys (runSequence xs s))
    ∧ (∀ (sequence : List Event) (s : SimState),
        ∃ t, (runSequence sequence s).log = s.log ++ t)
    ∧ (∀ (k : KbdKey) (s : SimState), k ∉ s.pressed →
        (runEvent s (Event.KeyDown k)).log = s.log ++ [KeyEvt.press k])
    ∧ (∀ (k : KbdKey) (s : SimState), k ∈ s.pressed →
        (runEvent s (Event.KeyUp k)).log = s.log ++ [KeyEvt.release k]) := by
  refine ⟨?_, ?_, ?_, ?_, ?_⟩
  · intro parse raw st msg nm hp hf
    simp [midi_callback, hp, hf]
  · intro xs ys s
    simp [runSequence, List.foldl_append]
  · intro sequence s
    exact runSequence_log_ext sequence s
  · intro k s h
    simp [runEvent, key_down, h]
  · intro k s h
    simp [runEvent, key_up, h]

/-- Witness for C2 at a concrete input: a note-on for the sample mapping runs
its on sequence synchronously. -/
theorem midi_callback_runs_in_order_witness :
    midi_callback sampleParse [144, 60, 100] sampleApp
      = ⟨sampleApp.mappings, runSequence sampleMapping.on_seq sampleApp.sim,
         sampleApp.console⟩ :=
  midi_callback_runs_in_order.1 sampleParse [144, 60, 100] sampleApp
    ⟨60, 0, MidiEvent.NoteOn⟩ sampleMapping rfl (by decide)

/-- C5 counterexample: a raw message that fails to parse produces no log line
at all (and no other effect) — the coordinator state, console included, is
exactly unchanged, so the failure is not logged in a default build. -/
theorem midi_callback_silent_on_parse_failure :
    midi_callback (fun _ => none) [240] appInit = appInit
    ∧ (midi_callback (fun _ => none) [240] appInit).console = [] := by
  constructor <;> rfl

/-- C5 as amended: a raw message that fails to parse is skipped silently — no
key event is emitted, the state (mapping table, simulator, console) is exactly
unchanged, and any subsequent message is handled as if the unparseable one had
never arrived. -/
theorem midi_callback_parse_failure_noop (parse : List Nat → Option MidiMessage)
    (raw : List Nat) (st : AppState) (h : parse raw = none) :
    midi_callback parse raw st = st
    ∧ ∀ (parse2 : List Nat → Option MidiMessage) (raw2 : List Nat),
        midi_callback parse2 raw2 (midi_callback parse raw st)
          = midi_callback parse2 raw2 st := by
  have h1 : midi_callback parse raw st = st := by simp [midi_callback, h]
  exact ⟨h1, fun parse2 raw2 => by rw [h1]⟩

/-- Witness for the amended C5 at a concrete input. -/
theorem midi_callback_parse_failure_noop_witness :
    midi_callback (fun _ => none) [254] sampleApp = sampleApp :=
  (midi_callback_parse_failure_noop (fun _ => none) [254] sampleApp rfl).1

/-- A failed registry lookup means the name is not among the registered
names. -/
lemma not_seen_not_mem {st : DevState} {name : String}
    (hc : ¬ st.ports.any (fun p => p.1 == name)) :
    name ∉ st.ports.map Prod.fst := by
  intro hmem
  obtain ⟨q, hq, he⟩ := List.mem_map.mp hmem
  exact hc (List.any_eq_true.mpr ⟨q, hq, by simp [he]⟩)

/-- A connect attempt for a not-yet-registered name keeps the registered names
duplicate-free. -/
lemma connectStep_nodup {connect_ok : String → Bool} {name : String} {st : DevState}
    (h : (st.ports.map Prod.fst).Nodup) (hn : name ∉ st.ports.map Prod.fst) :
    ((connectStep connect_ok name st).ports.map Prod.fst).Nodup := by
  unfold connectStep
  by_cases hc : connect_ok name
  · simp [hc, List.nodup_append, h, List.disjoint_singleton, hn]
  · simpa [hc]

/-- The per-port phase keeps the registered names duplicate-free. -/
lemma seenStep_nodup (midi_name : Option String) (connect_ok : String → Bool)
    (st : DevState) (name : String) (h : (st.ports.map Prod.fst).Nodup) :
    ((seenStep midi_name connect_ok st name).ports.map Prod.fst).Nodup := by
  unfold seenStep
  by_cases hc : st.ports.any (fun p => p.1 == name)
  · simpa [hc]
  · have hn := not_seen_not_mem hc
    cases midi_name with
    | none => simpa [hc] using connectStep_nodup h hn
    | some target =>
      by_cases ht : target != name
      · simpa [hc, ht]
      · simpa [hc, ht] using connectStep_nodup h hn

/-- The whole per-port fold keeps the registered names duplicate-free. -/
lemma connect_phase_nodup (midi_name : Option String) (connect_ok : String → Bool) :
    ∀ (visible : List String) (st : DevState), (st.ports.map Prod.fst).Nodup →
      (((visible.foldl (seenStep midi_name connect_ok) st)).ports.map Prod.fst).Nodup := by
  intro visible
  induction visible with
  | nil => intro st h; simpa
  | cons a rest ih =>
    intro st h
    rw [List.foldl_cons]
    exact ih _ (seenStep_nodup midi_name connect_ok st a h)

/-- C6: on consecutive polls seeing ports A,B and then B,C from an empty
registry, the end state registers exactly B (under its original connection
identifier from the first cycle) and C (fresh), A is gone and its
disconnection is reported, C's connection is reported; and, in general, one
poll cycle keeps at most one active connection per device name. -/
theorem hotplug_cycle :
    (pollCycle none allPortsOk ["B", "C"] (pollCycle none allPortsOk ["A", "B"] devInit)).ports
        = [("B", 1), ("C", 2)]
    ∧ ("B", 1) ∈ (pollCycle none allPortsOk ["A", "B"] devInit).ports
    ∧ (∀ p ∈ (pollCycle none allPortsOk ["B", "C"]
          (pollCycle none allPortsOk ["A", "B"] devInit)).ports, p.1 ≠ "A")
    ∧ "Disconnected from A" ∈ (pollCycle none allPortsOk ["B", "C"]
        (pollCycle none allPortsOk ["A", "B"] devInit)).output
    ∧ "Connection established to C" ∈ (pollCycle none allPortsOk ["B", "C"]
        (pollCycle none allPortsOk ["A", "B"] devInit)).output
    ∧ (∀ (midi_name : Option String) (connect_ok : String → Bool)
        (visible : List String) (st : DevState),
        (st.ports.map Prod.fst).Nodup →
        (((pollCycle midi_name connect_ok visible st).ports.map Prod.fst).Nodup)) := by
  refine ⟨by decide, by decide, by decide, by decide, by decide, ?_⟩
  intro midi_name connect_ok visible st h
  have h1 := connect_phase_nodup midi_name connect_ok visible st h
  show (((visible.foldl (seenStep midi_name connect_ok) st).ports.filter
      (fun p => visible.contains p.1)).map Prod.fst).Nodup
  exact List.Nodup.sublist
    (List.Sublist.map Prod.fst (List.filter_sublist _)) h1

/-- Witness for C6: the general per-cycle uniqueness invariant applied to a
concrete cycle. -/
theorem hotplug_cycle_witness :
    ((pollCycle (some "A") allPortsOk ["A", "A"] devInit).ports.map Prod.fst).Nodup :=
  hotplug_cycle.2.2.2.2.2 (some "A") allPortsOk ["A", "A"] devInit (by decide)

/-- C7: when a mappings file is explicitly requested and its import fails, the
run aborts with that diagnostic before any device polling, and no table —
default, imported or merged — is ever produced. -/
theorem import_failure_aborts (midi_name : Option String) (filename : String)
    (importFn : String → Except String NoteMappings) (connect_ok : String → Bool)
    (polls : List (List String)) (e : String)
    (h : importFn filename = Except.error e) :
    run_model midi_name (some filename) importFn connect_ok polls = Except.error e
    ∧ ∀ result, run_model midi_name (some filename) importFn connect_ok polls
        ≠ Except.ok result := by
  have h1 : run_model midi_name (some filename) importFn connect_ok polls
      = Except.error e := by
    simp [run_model, h]
  refine ⟨h1, fun result hr => ?_⟩
  rw [h1] at hr
  exact Except.noConfusion hr

/-- Witness for C7 at a concrete input: a failing import aborts the run with
its diagnostic. -/
theorem import_failure_aborts_witness :
    run_model none (some "mappings.txt") failImport allPortsOk [["A"]]
      = Except.error "bad mapping line" :=
  (import_failure_aborts none "mappings.txt" failImport allPortsOk [["A"]]
    "bad mapping line" rfl).1

/-- C10: the generated default table holds, for every key index below 48, the
Control-modified low-octave mapping at position 2j (note C1 plus j, channel 0)
directly followed by the unmodified mid-octave mapping at position 2j+1 (note
twelve semitones higher, channel 0); and for every note index C1+j with
12 ≤ j < 48, first-match lookup on (note, 0) returns the unmodified mid-octave
mapping of key j-12 — inserted at the earlier position 2(j-12)+1 < 2j — and
never the Control-modified low-octave mapping of key j, which is therefore
unreachable. -/
theorem default_table_shadowing :
    (∀ j, j < 48 →
        generate_old_mappings.get? (2 * j) = some (lo_mapping j)
        ∧ generate_old_mappings.get? (2 * j + 1) = some (mid_mapping j))
    ∧ (∀ j, j < 48 → 12 ≤ j →
        NoteMappings.find (j + midiC1) 0 generate_old_mappings = some (mid_mapping (j - 12))
        ∧ NoteMappings.find (j + midiC1) 0 generate_old_mappings ≠ some (lo_mapping j)
        ∧ mid_mapping (j - 12) ≠ lo_mapping j
        ∧ 2 * (j - 12) + 1 < 2 * j) := by
  constructor
  · decide
  · decide

/-- Witness for C10 at a concrete input: key index 13 — the low-octave mapping
sits at position 26, yet lookup of its note returns the mid-octave mapping of
key 1. -/
theorem default_table_shadowing_witness :
    generate_old_mappings.get? 26 = some (lo_mapping 13)
    ∧ NoteMappings.find (13 + midiC1) 0 generate_old_mappings = some (mid_mapping 1) :=
  ⟨(default_table_shadowing.1 13 (by decide)).1,
   (default_table_shadowing.2 13 (by decide) (by decide)).1⟩

end MidiPerform
